import Mathlib

/-!
Verification of the execution-plan core described in `spec.md` against the
repository sources. The repository provides `cpp/src/arrow/compute/exec/plan_test.cc`
(the authoritative tests of `ExecPlan` / `ExecNode` lifecycle and of the
relational operators) and `cpp/src/arrow/dataset/file_base.h`. The engine
implementation files themselves (`exec_plan.cc` and the node implementations)
are not part of the sources, so those operations are modelled from the
specification text, constrained to reproduce exactly the behaviour the tests
assert.
-/

namespace ArrowModel

/-- Status codes observed at the engine boundary (spec section 6; mirrors
`arrow::StatusCode` values used in `plan_test.cc`). -/
inductive StatusCode where
  | OK
  | Invalid
  | IOError
  | NotImplemented
  deriving DecidableEq, Repr

/-- A status: a code plus a message, mirroring `arrow::Status`. -/
structure Status where
  code : StatusCode
  msg : String
  deriving DecidableEq, Repr

/-- The OK status (empty message). -/
def Status.okStatus : Status := ⟨StatusCode.OK, ""⟩

/-- Check whether one character list starts with another. -/
def charsStartWith : List Char → List Char → Bool
  | _, [] => true
  | [], _ :: _ => false
  | a :: as, b :: bs => a == b && charsStartWith as bs

/-- Check whether a character list contains another as a contiguous run. -/
def charsContain : List Char → List Char → Bool
  | [], sub => sub.isEmpty
  | a :: as, sub => charsStartWith (a :: as) sub || charsContain as sub

/-- Substring containment on strings, used to state the `HasSubstr` assertions
of `plan_test.cc`. -/
def strContains (s sub : String) : Bool := charsContain s.data sub.data

/-- A node of the dummy plans built by `MakeDummyNode` in `plan_test.cc`:
a label, the list of inputs (as indices of previously inserted nodes, since
`MakeDummyNode` can only wire already-constructed nodes), the declared
number of outputs, and the status its `start_producing_func` returns. -/
structure DummyNode where
  label : String
  inputs : List Nat
  numOutputs : Nat
  startStatus : Status
  deriving DecidableEq, Repr

/-- Default node used with `List.getD`. -/
def dummyDefault : DummyNode := ⟨"", [], 0, Status.okStatus⟩

/-- An execution plan: the nodes in insertion order, plus the started flag
(invariant I5 state). -/
structure ExecPlan where
  nodes : List DummyNode
  started : Bool
  deriving DecidableEq, Repr

/-- Inputs of every node must refer to earlier nodes (they are constructed
before being wired, spec I2/I3: in-plan references and acyclicity). -/
def inputsBackward (nodes : List DummyNode) : Bool :=
  (List.range nodes.length).all fun i =>
    ((nodes.getD i dummyDefault).inputs).all fun j => decide (j < i)

/-- Number of bindings of node `i` as an input of other nodes. -/
def refCount (nodes : List DummyNode) (i : Nat) : Nat :=
  (nodes.map fun n => n.inputs.count i).sum

/-- Every declared output must be bound (spec I1). -/
def outputsBound (nodes : List DummyNode) : Bool :=
  (List.range nodes.length).all fun i =>
    (nodes.getD i dummyDefault).numOutputs == refCount nodes i

/-- Modelled from the spec: `ExecPlan::Validate` (`exec_plan.cc` is not in the
sources). Walks the nodes and returns the first violation of I1-I4 as an
`Invalid` status, as asserted by the `ExecPlanConstruction` tests. -/
def ExecPlan.validate (p : ExecPlan) : Status :=
  if p.nodes.isEmpty then ⟨StatusCode.Invalid, "ExecPlan has no node"⟩
  else if !inputsBackward p.nodes then
    ⟨StatusCode.Invalid, "node input refers to a node not constructed before it"⟩
  else if !outputsBound p.nodes then
    ⟨StatusCode.Invalid, "node has an unbound output"⟩
  else Status.okStatus

/-- Result of the start loop: the labels passed to `start_producing_func` in
call order, the successfully started labels in start order, and the final
status. -/
structure StartLoopResult where
  attempted : List String
  succeeded : List String
  status : Status
  deriving DecidableEq, Repr

/-- Modelled from the spec: the node-start loop of `ExecPlan::StartProducing`
(spec 4.2 step 3-4). Calls the start function of each node in the given order,
recording the successfully-started nodes, and stops at the first error. -/
def startNodes : List DummyNode → StartLoopResult
  | [] => ⟨[], [], Status.okStatus⟩
  | n :: rest =>
    if n.startStatus.code == StatusCode.OK then
      let r := startNodes rest
      ⟨n.label :: r.attempted, n.label :: r.succeeded, r.status⟩
    else
      ⟨[n.label], [], n.startStatus⟩

/-- Outcome of `ExecPlan::StartProducing`: attempted labels, successfully
started labels, labels stopped by the error unwind, and the returned status. -/
structure StartOutcome where
  attempted : List String
  succeeded : List String
  stopped : List String
  status : Status
  deriving DecidableEq, Repr

/-- Modelled from the spec: `ExecPlan::StartProducing` (`exec_plan.cc` is not
in the sources). Step 1: refuse a restart with an `Invalid` status whose
message contains "restarted" (spec 4.2, invariant I5). Step 2-3: start nodes
in reverse insertion order, which is a reverse-topological order because every
node has its inputs inserted before it; this is exactly the order asserted by
`ExecPlan.DummyStartProducing`. Step 4: on error, stop the successfully
started prefix in reverse start order and return the error. Step 5: on
success, mark the plan started. -/
def ExecPlan.startProducing (p : ExecPlan) : StartOutcome × ExecPlan :=
  if p.started then
    (⟨[], [], [], ⟨StatusCode.Invalid, "restarted ExecPlan"⟩⟩, p)
  else
    let r := startNodes p.nodes.reverse
    if r.status.code == StatusCode.OK then
      (⟨r.attempted, r.succeeded, [], r.status⟩, ⟨p.nodes, true⟩)
    else
      (⟨r.attempted, r.succeeded, r.succeeded.reverse, r.status⟩, p)

/-- Modelled from the spec: `ExecPlan::StopProducing` invokes the per-node
stop functions in forward topological order, i.e. insertion order (spec 4.2),
matching the order asserted by `ExecPlan.DummyStartProducing`. Returns the
labels in stop-call order. -/
def ExecPlan.stopProducing (p : ExecPlan) : List String :=
  p.nodes.map DummyNode.label

/-- Descending list `n-1, n-2, ..., 0`: the node indices in start order. -/
def revRange : Nat → List Nat
  | 0 => []
  | n + 1 => n :: revRange n

/-- Indices of the nodes in the order their start functions are called. -/
def ExecPlan.startOrder (p : ExecPlan) : List Nat := revRange p.nodes.length

/-- Indices of the nodes in the order their stop functions are called. -/
def ExecPlan.stopOrder (p : ExecPlan) : List Nat := List.range p.nodes.length

/-- Label of the node at insertion index `i`. -/
def labelAt (p : ExecPlan) (i : Nat) : String := (p.nodes.getD i dummyDefault).label

/-- `a` occurs strictly before `b` in the list `l`. -/
def IsBeforeIn (l : List Nat) (a b : Nat) : Prop :=
  ∃ l1 l2 l3, l = l1 ++ a :: l2 ++ b :: l3

/-- The six-node plan of `ExecPlan.DummyStartProducing`
(`plan_test.cc:131-174`), every start function returning OK. -/
def testPlanNodes : List DummyNode :=
  [⟨"source1", [], 2, Status.okStatus⟩,
   ⟨"source2", [], 1, Status.okStatus⟩,
   ⟨"process1", [0], 2, Status.okStatus⟩,
   ⟨"process2", [2, 1], 1, Status.okStatus⟩,
   ⟨"process3", [2, 0, 3], 1, Status.okStatus⟩,
   ⟨"sink", [4], 0, Status.okStatus⟩]

/-- The plan of `ExecPlan.DummyStartProducing`, not yet started. -/
def testPlan : ExecPlan := ⟨testPlanNodes, false⟩

/-- The six-node plan of `ExecPlan.DummyStartProducingError`
(`plan_test.cc:176-212`): `source1` would fail with `NotImplemented("zzz")`
and `process1` fails with `IOError("xxx")`. -/
def errPlanNodes : List DummyNode :=
  [⟨"source1", [], 2, ⟨StatusCode.NotImplemented, "zzz"⟩⟩,
   ⟨"source2", [], 1, Status.okStatus⟩,
   ⟨"process1", [0], 2, ⟨StatusCode.IOError, "xxx"⟩⟩,
   ⟨"process2", [2, 1], 1, Status.okStatus⟩,
   ⟨"process3", [2, 0, 3], 1, Status.okStatus⟩,
   ⟨"sink", [4], 0, Status.okStatus⟩]

/-- The plan of `ExecPlan.DummyStartProducingError`, not yet started. -/
def errPlan : ExecPlan := ⟨errPlanNodes, false⟩

/-- The successfully-started prefix of the error plan, in start order. -/
def errGoodNodes : List DummyNode :=
  [⟨"sink", [4], 0, Status.okStatus⟩,
   ⟨"process3", [2, 0, 3], 1, Status.okStatus⟩,
   ⟨"process2", [2, 1], 1, Status.okStatus⟩]

/-- The failing node of the error plan. -/
def errBadNode : DummyNode := ⟨"process1", [0], 2, ⟨StatusCode.IOError, "xxx"⟩⟩

/-- The nodes the error plan never reaches, in start order. -/
def errRestNodes : List DummyNode :=
  [⟨"source2", [], 1, Status.okStatus⟩,
   ⟨"source1", [], 2, ⟨StatusCode.NotImplemented, "zzz"⟩⟩]

/-- One pull from the async batch channel of a source (spec 4.4 and 9): a batch,
the end of the stream, or an error. -/
inductive GenItem (α : Type) where
  | batch (b : α)
  | ended
  | failed (e : Status)
  deriving DecidableEq, Repr

/-- Modelled from the spec: the drain loop of the source node (spec 4.4,
`source_node.cc` is not in the sources). Each yielded batch is forwarded via
`InputReceived`; the stream end triggers `InputFinished`; an error triggers
`ErrorReceived` and stops the drain. Returns the emitted batches in order and
the terminal error, if any. -/
def sourceDrain {α : Type} : List (GenItem α) → List α × Option Status
  | [] => ([], none)
  | GenItem.batch b :: rest =>
    let r := sourceDrain rest
    (b :: r.1, r.2)
  | GenItem.ended :: _ => ([], none)
  | GenItem.failed e :: _ => ([], some e)

/-- Modelled from the spec: the one-shot settleable cell backing `finished()`
(spec 9, first-writer-wins completion): a write to a settled cell is dropped. -/
def settleFirst (cell : Option Status) (s : Status) : Option Status :=
  match cell with
  | none => some s
  | some s0 => some s0

/-- Modelled from the spec: the settlement of the `finished()` future of the plan
(spec 4.2 and 7): OK when no error was observed, otherwise the first observed
error, later writers dropped. -/
def planFinishedStatus (errors : List Status) : Status :=
  match errors.foldl settleFirst none with
  | none => Status.okStatus
  | some e => e

/-- The channel contents of a well-terminated generator: the batches in
emission order followed by the end-of-stream marker. -/
def serialGen {α : Type} (bs : List α) : List (GenItem α) :=
  bs.map GenItem.batch ++ [GenItem.ended]

/-- Modelled from the spec: a Source→Sink pipeline (spec 4.4, 4.5; the node
implementations are not in the sources). The sink enqueues each received
batch in arrival order and exposes them through its channel; the plan-level
`finished()` settles with the first observed error, else OK. -/
def runSourceSink {α : Type} (gen : List (GenItem α)) : List α × Status :=
  let d := sourceDrain gen
  (d.1, planFinishedStatus d.2.toList)

/-- One step of the error-propagation scan: with the flags of the first
`acc.length` nodes computed, node `acc.length` is errored when it is the
signalling node `e` or when one of its inputs (all of smaller index) is
errored. -/
def erroredStep (e : Nat) (acc : List Bool) (n : DummyNode) : List Bool :=
  acc ++ [decide (acc.length = e) || n.inputs.any fun j => acc.getD j false]

/-- Modelled from the spec: the set of nodes reached by a runtime error
signalled at node `e` (spec 4.1 `ErrorReceived` - the receiver must forward
the error downstream and enter `Errored` - and spec 7 Runtime; the node
implementations are not in the sources). Since every input precedes its
consumer in insertion order, a single forward scan computes, per node,
whether the error reached it. -/
def erroredFlags (nodes : List DummyNode) (e : Nat) : List Bool :=
  nodes.foldl (erroredStep e) []

/-- A sink is a node with no declared outputs (spec section 3, ExecPlan
entity; `plan_test.cc` builds sinks with `num_outputs = 0`). -/
def isSink (nodes : List DummyNode) (i : Nat) : Bool :=
  (nodes.getD i dummyDefault).numOutputs == 0

/-- Modelled from the spec: the per-sink settlements after a runtime error at
node `e` (spec 4.2 finished and 7): a sink the error reached settles with
the error, every other sink settles OK. -/
def sinkSettlements (nodes : List DummyNode) (e : Nat) (err : Status) : List Status :=
  ((List.range nodes.length).filter fun i => isSink nodes i).map
    fun s => if (erroredFlags nodes e).getD s false then err else Status.okStatus

/-- Modelled from the spec: the settlement of the plan-level `finished()`
after a runtime error at node `e`: the first error observed among the sink
settlements wins (spec 4.2 finished, 7, 9 first-writer-wins). -/
def planRuntimeFinished (nodes : List DummyNode) (e : Nat) (err : Status) : Status :=
  planFinishedStatus ((sinkSettlements nodes e err).filter fun st =>
    !(st.code == StatusCode.OK))

/-- The stable sort used by the order-by sink: insertion sort by the key,
which keeps the original relative order of rows with equal keys. -/
def stableSortByKey {α : Type} (key : α → Int) (l : List α) : List α :=
  List.insertionSort (fun a b => key a ≤ key b) l

/-- Modelled from the spec: delivery along a single (sender, receiver,
input-slot) edge. Spec 5, ordering guarantees: "Within a single (sender,
receiver, input-slot) triple, batch indices arrive in monotonic order", in
either scheduling mode, so the receiver observes the batches in emission
order whether or not the plan runs parallel. -/
def deliverOrdered {α : Type} (_parallelMode : Bool) (bs : List α) : List α := bs

/-- Modelled from the spec: a Source→OrderBySink pipeline (spec 4.10,
`sink_node.cc` is not in the sources). The sink buffers all received batches,
concatenates them on `InputFinished`, computes a stable sort permutation and
emits one ordered batch; on error it discards the buffered data (spec 7). -/
def runSourceOrderBySink {α : Type} (parallelMode : Bool) (key : α → Int)
    (gen : List (GenItem (List α))) : List (List α) × Status :=
  let d := sourceDrain gen
  match d.2 with
  | some e => ([], e)
  | none =>
    ([stableSortByKey key (deliverOrdered parallelMode d.1).flatten], Status.okStatus)

/-- The boolean mask the filter expression produces on a batch: one ternary
truth value per row (spec 4.7; expression evaluation is external). -/
def filterMask {α : Type} (pred : α → Option Bool) (rows : List α) : List (Option Bool) :=
  rows.map pred

/-- Selection of the rows whose mask entry is true. -/
def applyMask {α : Type} : List α → List (Option Bool) → List α
  | r :: rs, m :: ms =>
    if m == some true then r :: applyMask rs ms else applyMask rs ms
  | _, _ => []

/-- Modelled from the spec: the per-batch work of `FilterNode` (spec 4.7,
`filter_node.cc` is not in the sources): evaluate the boolean expression on
the batch and emit only the rows where the result is true. -/
def filterBatch {α : Type} (pred : α → Option Bool) (rows : List α) : List α :=
  applyMask rows (filterMask pred rows)

/-- Modelled from the spec: `FilterNode` over a stream of batches; every
input batch produces exactly one output batch, an all-false batch producing
an empty one (spec 4.7). -/
def filterNode {α : Type} (pred : α → Option Bool) (bs : List (List α)) : List (List α) :=
  bs.map (filterBatch pred)

/-- A row over the `(i32, bool)` schema of the basic test batches; `none`
is a null. -/
abbrev Row := Option Int × Option Bool

/-- The predicate `equal(field_ref("i32"), literal(6))` of
`ExecPlanExecution.SourceFilterSink`, with SQL null semantics. -/
def predI32Eq6 (r : Row) : Option Bool := r.1.map fun v => v == 6

/-- First batch of `MakeBasicBatches`: rows `[null, true]`, `[4, false]`
(reconstructed from the expected outputs asserted in
`ExecPlanExecution.SourceProjectSink` and `SourceScalarAggSink`). -/
def basicBatch1 : List Row := [(none, some true), (some 4, some false)]

/-- Second batch of `MakeBasicBatches`: rows `[5, null]`, `[6, false]`,
`[7, false]`. -/
def basicBatch2 : List Row := [(some 5, none), (some 6, some false), (some 7, some false)]

/-- The two batches of `MakeBasicBatches`. -/
def basicBatches : List (List Row) := [basicBatch1, basicBatch2]

/-- The six rows the claim about scenario S5 lists as the input. -/
def claimedS5Batch : List Row :=
  [(some 1, some true), (some 2, some true), (none, some true),
   (some 5, none), (some 6, some false), (some 7, some false)]

/-- Running state of the scalar aggregate `sum(i32), any(bool)`:
the running sum over non-null values and whether a true was seen. -/
structure ScalarAggState where
  sumAcc : Int
  anyAcc : Bool
  deriving DecidableEq, Repr

/-- Initial aggregate state. -/
def scalarAggInitState : ScalarAggState := ⟨0, false⟩

/-- Per-row update: `sum` skips nulls, `any` is true once a true is seen. -/
def scalarAggUpdate (st : ScalarAggState) (r : Row) : ScalarAggState :=
  ⟨st.sumAcc + (match r.1 with | some v => v | none => 0),
   st.anyAcc || (r.2 == some true)⟩

/-- Finalization: one row of scalars (spec 4.8). -/
def scalarAggFinalize (st : ScalarAggState) : Row :=
  (some st.sumAcc, some st.anyAcc)

/-- Output of the scalar aggregate node: its batches and whether the columns
are emitted as scalars (spec 4.8: shape `[Scalar(col_0), Scalar(col_1)]`). -/
structure ScalarAggOutput where
  batches : List (List Row)
  columnsAreScalar : Bool
  deriving DecidableEq, Repr

/-- Modelled from the spec: the scalar aggregate node for
`aggregate(sum(i32), any(bool))` (spec 4.8, `aggregate_node.cc` is not in the
sources): fold the kernel update over every row of every input batch and, on
`InputFinished`, emit a single batch with one row of scalars. -/
def scalarAggNode (bs : List (List Row)) : ScalarAggOutput :=
  ⟨[[scalarAggFinalize (bs.flatten.foldl scalarAggUpdate scalarAggInitState)]], true⟩

/-- Observable events of a Source→ConsumingSink plan, in order of occurrence. -/
inductive ConsumingEvent where
  | consume (idx : Nat)
  | inputFinished
  | consumerFinished
  | planFinished
  deriving DecidableEq, Repr

/-- Modelled from the spec: the consume loop of `ConsumingSinkNode`
(spec 4.6): `Consume` is called once per incoming batch; an error from
`Consume` stops the loop and is reported (spec 7). Returns the consume events
and the first consume error, if any. -/
def consumeLoop {α : Type} (consumeStatus : α → Status) : List α → Nat → List ConsumingEvent × Option Status
  | [], _ => ([], none)
  | b :: rest, i =>
    if (consumeStatus b).code == StatusCode.OK then
      let r := consumeLoop consumeStatus rest (i + 1)
      (ConsumingEvent.consume i :: r.1, r.2)
    else
      ([ConsumingEvent.consume i], some (consumeStatus b))

/-- Modelled from the spec: a Source→ConsumingSink plan (spec 4.6,
`sink_node.cc` is not in the sources). The node consumes each batch; on
`InputFinished` it waits for the consumer `Finish()` to complete before
marking its own `finished()`, and only then does the plan `finished()`
settle; a failed `Consume` or `Finish` fails the plan completion. -/
def consumingSinkRun {α : Type} (batches : List α) (consumeStatus : α → Status)
    (finishStatus : Status) : List ConsumingEvent × Status :=
  let r := consumeLoop consumeStatus batches 0
  let trace := r.1 ++ [ConsumingEvent.inputFinished, ConsumingEvent.consumerFinished,
    ConsumingEvent.planFinished]
  match r.2 with
  | some e => (trace, e)
  | none =>
    (trace, if finishStatus.code == StatusCode.OK then Status.okStatus else finishStatus)

/-- Compression type carried by a `FileSource` (`file_base.h:126`). -/
inductive CompressionType where
  | UNCOMPRESSED
  | COMPRESSED
  deriving DecidableEq, Repr

/-- The state of a `FileSource` (`file_base.h:117-127`): `file_info_` path,
presence of `filesystem_` and `buffer_`, the `custom_open_` callable (an
opaque `Nat` stands for the opened `RandomAccessFile`), and `compression_`. -/
structure FileSource where
  pathStr : String
  filesystemPresent : Bool
  bufferPresent : Bool
  customOpen : Option (Unit → Except Status Nat)
  compression : CompressionType

/-- `FileSource::InvalidOpen` (`file_base.h:118-120`): returns
`Status::Invalid("Called Open() on an uninitialized FileSource")`. -/
def FileSource.invalidOpen : Unit → Except Status Nat :=
  fun _ => Except.error ⟨StatusCode.Invalid, "Called Open() on an uninitialized FileSource"⟩

/-- The default constructor `FileSource()` (`file_base.h:81`): no path, no
filesystem, no buffer; `custom_open_` is bound to `InvalidOpen`. -/
def FileSource.defaultCtor : FileSource :=
  ⟨"", false, false, some FileSource.invalidOpen, CompressionType.UNCOMPRESSED⟩

/-- Modelled from the spec: the dispatch of `FileSource::Open`
(`file_base.cc` is not in the sources): open through the filesystem when one
is present, else read the buffer when one is present, else invoke
`custom_open_`; the member itself is declared `const` (`file_base.h:109`), so
it leaves the `FileSource` untouched. -/
def FileSource.Open (s : FileSource) : Except Status Nat :=
  if s.filesystemPresent then Except.ok 0
  else if s.bufferPresent then Except.ok 1
  else
    match s.customOpen with
    | some f => f ()
    | none => Except.error ⟨StatusCode.Invalid, "no opener"⟩

theorem startNodes_allOk (l : List DummyNode)
    (h : l.all (fun n => n.startStatus.code == StatusCode.OK) = true) :
    startNodes l = ⟨l.map DummyNode.label, l.map DummyNode.label, Status.okStatus⟩ := by
  induction l with
  | nil => rfl
  | cons n ns ih =>
    rw [List.all_cons, Bool.and_eq_true] at h
    simp [startNodes, h.1, ih h.2]

theorem startNodes_split (good : List DummyNode) (bad : DummyNode) (rest : List DummyNode)
    (hgood : good.all (fun n => n.startStatus.code == StatusCode.OK) = true)
    (hbad : ¬bad.startStatus.code = StatusCode.OK) :
    startNodes (good ++ bad :: rest) =
      ⟨good.map DummyNode.label ++ [bad.label], good.map DummyNode.label, bad.startStatus⟩ := by
  induction good with
  | nil =>
    have hb : (bad.startStatus.code == StatusCode.OK) = false := by
      simp [hbad]
    simp [startNodes, hb]
  | cons n ns ih =>
    rw [List.all_cons, Bool.and_eq_true] at hgood
    simp [startNodes, hgood.1, ih hgood.2]

theorem validate_ok_inputsBackward (p : ExecPlan) (h : p.validate.code = StatusCode.OK) :
    inputsBackward p.nodes = true := by
  unfold ExecPlan.validate at h
  by_cases h1 : p.nodes.isEmpty
  · simp [h1] at h
  · by_cases h2 : inputsBackward p.nodes = true
    · exact h2
    · rw [Bool.not_eq_true] at h2
      simp [h1, h2] at h

theorem inputsBackward_elim {nodes : List DummyNode} (h : inputsBackward nodes = true)
    {i : Nat} (hi : i < nodes.length) {j : Nat}
    (hj : j ∈ (nodes.getD i dummyDefault).inputs) : j < i := by
  unfold inputsBackward at h
  rw [List.all_eq_true] at h
  have h2 := h i (List.mem_range.mpr hi)
  rw [List.all_eq_true] at h2
  exact of_decide_eq_true (h2 j hj)

theorem revRange_eq_reverse (n : Nat) : revRange n = (List.range n).reverse := by
  induction n with
  | zero => rfl
  | succ m ih =>
    rw [revRange, List.range_succ, List.reverse_append]
    simp [ih]

theorem mem_revRange {a n : Nat} : a ∈ revRange n ↔ a < n := by
  rw [revRange_eq_reverse, List.mem_reverse, List.mem_range]

theorem revRange_isBeforeIn {n a b : Nat} (hba : b < a) (han : a < n) :
    IsBeforeIn (revRange n) a b := by
  induction n with
  | zero => exact absurd han (Nat.not_lt_zero a)
  | succ m ih =>
    by_cases hcase : a = m
    · subst hcase
      have hbmem : b ∈ revRange a := mem_revRange.mpr hba
      obtain ⟨s, t, hst⟩ := List.append_of_mem hbmem
      exact ⟨[], s, t, by simp [revRange, hst]⟩
    · have ham : a < m := by omega
      obtain ⟨l1, l2, l3, hl⟩ := ih ham
      exact ⟨m :: l1, l2, l3, by simp [revRange, hl]⟩

theorem isBeforeIn_reverse {l : List Nat} {a b : Nat} (h : IsBeforeIn l a b) :
    IsBeforeIn l.reverse b a := by
  obtain ⟨l1, l2, l3, hl⟩ := h
  refine ⟨l3.reverse, l2.reverse, l1.reverse, ?_⟩
  rw [hl]
  simp [List.reverse_append]

theorem range_isBeforeIn {n a b : Nat} (hab : a < b) (hbn : b < n) :
    IsBeforeIn (List.range n) a b := by
  have h := isBeforeIn_reverse (revRange_isBeforeIn hab hbn)
  rw [revRange_eq_reverse, List.reverse_reverse] at h
  exact h

theorem range_map_getD_comp {α β : Type} (l : List α) (d : α) (g : α → β) :
    (List.range l.length).map (fun i => g (l.getD i d)) = l.map g := by
  induction l with
  | nil => rfl
  | cons x xs ih =>
    rw [List.length_cons, List.range_succ_eq_map, List.map_cons, List.map_map]
    simp only [Function.comp_def, List.getD_cons_zero, List.getD_cons_succ]
    rw [ih, List.map_cons]

/-- C1: for every valid plan on which `StartProducing` has already succeeded
once, a second call to `ExecPlan::StartProducing` returns an error with code
`Invalid` whose message contains the substring "restarted"; no per-node start
function is invoked and the plan is unchanged. -/
theorem startProducing_restart_invalid (p : ExecPlan)
    (hv : p.validate.code = StatusCode.OK)
    (hns : p.started = false)
    (hok : (p.startProducing).1.status = Status.okStatus) :
    (((p.startProducing).2.startProducing).1.status.code = StatusCode.Invalid) ∧
    (strContains ((p.startProducing).2.startProducing).1.status.msg "restarted" = true) ∧
    (((p.startProducing).2.startProducing).1.attempted = []) ∧
    (((p.startProducing).2.startProducing).2 = (p.startProducing).2) := by
  have hcond : ((startNodes p.nodes.reverse).status.code == StatusCode.OK) = true := by
    by_contra hc
    rw [Bool.not_eq_true] at hc
    have hbr : (p.startProducing).1.status = (startNodes p.nodes.reverse).status := by
      simp [ExecPlan.startProducing, hns, hc]
    rw [hok] at hbr
    rw [← hbr] at hc
    simp [Status.okStatus] at hc
  have hstep : (p.startProducing).2 = ⟨p.nodes, true⟩ := by
    simp [ExecPlan.startProducing, hns, hcond]
  rw [hstep]
  refine ⟨by simp [ExecPlan.startProducing], ?_, by simp [ExecPlan.startProducing],
    by simp [ExecPlan.startProducing]⟩
  simp only [ExecPlan.startProducing, if_true]
  decide

/-- Witness for C1: the six-node plan of `ExecPlan.DummyStartProducing`. -/
theorem startProducing_restart_invalid_witness :
    (testPlan.validate.code = StatusCode.OK ∧ testPlan.started = false ∧
      (testPlan.startProducing).1.status = Status.okStatus) ∧
    ((((testPlan.startProducing).2.startProducing).1.status.code = StatusCode.Invalid) ∧
      (strContains ((testPlan.startProducing).2.startProducing).1.status.msg "restarted"
        = true) ∧
      (((testPlan.startProducing).2.startProducing).1.attempted = []) ∧
      (((testPlan.startProducing).2.startProducing).2 = (testPlan.startProducing).2)) :=
  ⟨⟨by decide, by decide, by decide⟩,
    startProducing_restart_invalid testPlan (by decide) (by decide) (by decide)⟩

/-- C2: when the start function of some node fails, `ExecPlan::StartProducing`
stops iterating, returns that error, and stops exactly the
successfully-started nodes - not the failing node nor any later one - in the
reverse of their start order; the plan is not marked started. -/
theorem startProducing_error_unwind (p : ExecPlan) (good : List DummyNode)
    (bad : DummyNode) (rest : List DummyNode)
    (hns : p.started = false)
    (hsplit : p.nodes.reverse = good ++ bad :: rest)
    (hgood : good.all (fun n => n.startStatus.code == StatusCode.OK) = true)
    (hbad : ¬bad.startStatus.code = StatusCode.OK) :
    ((p.startProducing).1.status = bad.startStatus) ∧
    ((p.startProducing).1.attempted = good.map DummyNode.label ++ [bad.label]) ∧
    ((p.startProducing).1.succeeded = good.map DummyNode.label) ∧
    ((p.startProducing).1.stopped = (good.map DummyNode.label).reverse) ∧
    ((p.startProducing).2 = p) := by
  have hsn : startNodes p.nodes.reverse =
      ⟨good.map DummyNode.label ++ [bad.label], good.map DummyNode.label,
        bad.startStatus⟩ := by
    rw [hsplit]
    exact startNodes_split good bad rest hgood hbad
  have hcode : (bad.startStatus.code == StatusCode.OK) = false := by
    simp [hbad]
  simp [ExecPlan.startProducing, hns, hsn, hcode]

/-- Witness for C2: the plan of `ExecPlan.DummyStartProducingError`, where
`process1` fails with `IOError("xxx")` after `sink`, `process3` and
`process2` started; the unwind the test asserts is exactly
`stopped = ["process2", "process3", "sink"]`. -/
theorem startProducing_error_unwind_witness :
    (errPlan.started = false ∧
      errPlan.nodes.reverse = errGoodNodes ++ errBadNode :: errRestNodes ∧
      errGoodNodes.all (fun n => n.startStatus.code == StatusCode.OK) = true ∧
      ¬errBadNode.startStatus.code = StatusCode.OK) ∧
    (((errPlan.startProducing).1.status = errBadNode.startStatus) ∧
      ((errPlan.startProducing).1.attempted =
        errGoodNodes.map DummyNode.label ++ [errBadNode.label]) ∧
      ((errPlan.startProducing).1.succeeded = errGoodNodes.map DummyNode.label) ∧
      ((errPlan.startProducing).1.stopped =
        (errGoodNodes.map DummyNode.label).reverse) ∧
      ((errPlan.startProducing).2 = errPlan)) :=
  ⟨⟨by decide, by decide, by decide, by decide⟩,
    startProducing_error_unwind errPlan errGoodNodes errBadNode errRestNodes
      (by decide) (by decide) (by decide) (by decide)⟩

/-- C3: for every valid plan whose nodes all start successfully, the start
functions are invoked along `startOrder`, which places every node before each
of its inputs (a reverse-topological sort), and `StopProducing` invokes the
stop functions along `stopOrder`, which places every node after each of its
inputs (a topological sort). -/
theorem startStop_topological (p : ExecPlan)
    (hv : p.validate.code = StatusCode.OK)
    (hns : p.started = false)
    (hall : p.nodes.all (fun n => n.startStatus.code == StatusCode.OK) = true) :
    ((p.startProducing).1.attempted = p.startOrder.map (labelAt p)) ∧
    ((p.startProducing).1.status.code = StatusCode.OK) ∧
    (p.stopProducing = p.stopOrder.map (labelAt p)) ∧
    (∀ i, i < p.nodes.length →
      ∀ j ∈ (p.nodes.getD i dummyDefault).inputs,
        IsBeforeIn p.startOrder i j ∧ IsBeforeIn p.stopOrder j i) := by
  have hrev : p.nodes.reverse.all (fun n => n.startStatus.code == StatusCode.OK) = true := by
    rw [List.all_eq_true] at hall ⊢
    intro x hx
    exact hall x (List.mem_reverse.mp hx)
  have hsn := startNodes_allOk p.nodes.reverse hrev
  have hmap : p.startOrder.map (labelAt p) = p.nodes.reverse.map DummyNode.label := by
    unfold ExecPlan.startOrder labelAt
    rw [revRange_eq_reverse, List.map_reverse, List.map_reverse]
    rw [range_map_getD_comp p.nodes dummyDefault DummyNode.label]
  refine ⟨?_, ?_, ?_, ?_⟩
  · rw [hmap]
    simp [ExecPlan.startProducing, hns, hsn, Status.okStatus]
  · simp [ExecPlan.startProducing, hns, hsn, Status.okStatus]
  · unfold ExecPlan.stopProducing ExecPlan.stopOrder labelAt
    rw [range_map_getD_comp p.nodes dummyDefault DummyNode.label]
  · intro i hi j hj
    have hji : j < i := inputsBackward_elim (validate_ok_inputsBackward p hv) hi hj
    exact ⟨revRange_isBeforeIn hji hi, range_isBeforeIn hji hi⟩

/-- Witness for C3: the six-node plan of `ExecPlan.DummyStartProducing`. -/
theorem startStop_topological_witness :
    (testPlan.validate.code = StatusCode.OK ∧ testPlan.started = false ∧
      testPlan.nodes.all (fun n => n.startStatus.code == StatusCode.OK) = true) ∧
    (((testPlan.startProducing).1.attempted = testPlan.startOrder.map (labelAt testPlan)) ∧
      ((testPlan.startProducing).1.status.code = StatusCode.OK) ∧
      (testPlan.stopProducing = testPlan.stopOrder.map (labelAt testPlan)) ∧
      (∀ i, i < testPlan.nodes.length →
        ∀ j ∈ (testPlan.nodes.getD i dummyDefault).inputs,
          IsBeforeIn testPlan.startOrder i j ∧ IsBeforeIn testPlan.stopOrder j i)) :=
  ⟨⟨by decide, by decide, by decide⟩,
    startStop_topological testPlan (by decide) (by decide) (by decide)⟩

theorem sourceDrain_serial {α : Type} (bs : List α) :
    sourceDrain (serialGen bs) = (bs, none) := by
  induction bs with
  | nil => rfl
  | cons b rest ih =>
    show sourceDrain (GenItem.batch b :: serialGen rest) = (b :: rest, none)
    rw [sourceDrain, ih]

theorem runSourceSink_serial {α : Type} (bs : List α) :
    runSourceSink (serialGen bs) = (bs, Status.okStatus) := by
  simp [runSourceSink, sourceDrain_serial bs, planFinishedStatus]

/-- C4: a Source→Sink pipeline delivers exactly the input batches: in serial
mode the collected list equals the input list (same order); whatever arrival
order a parallel run produces - any permutation of the inputs - the collected
batches equal the input batches as a multiset and the plan finishes OK. -/
theorem sourceSink_collects_multiset {α : Type} (bs arrival : List α)
    (hperm : arrival.Perm bs) :
    (runSourceSink (serialGen bs) = (bs, Status.okStatus)) ∧
    ((↑(runSourceSink (serialGen arrival)).1 : Multiset α) = (↑bs : Multiset α)) ∧
    ((runSourceSink (serialGen arrival)).2 = Status.okStatus) := by
  refine ⟨runSourceSink_serial bs, ?_, ?_⟩
  · rw [runSourceSink_serial arrival]
    exact Multiset.coe_eq_coe.mpr hperm
  · rw [runSourceSink_serial arrival]

/-- Witness for C4: two batches delivered in swapped order still collect to
the same multiset. -/
theorem sourceSink_collects_multiset_witness :
    (([2, 1] : List Nat).Perm [1, 2]) ∧
    ((runSourceSink (serialGen ([1, 2] : List Nat)) = ([1, 2], Status.okStatus)) ∧
      ((↑(runSourceSink (serialGen ([2, 1] : List Nat))).1 : Multiset Nat) =
        (↑([1, 2] : List Nat) : Multiset Nat)) ∧
      ((runSourceSink (serialGen ([2, 1] : List Nat))).2 = Status.okStatus)) :=
  ⟨by decide, sourceSink_collects_multiset [1, 2] [2, 1] (by decide)⟩

theorem orderedInsert_filter_ne {α : Type} (key : α → Int) (k : Int) (a : α)
    (ha : (key a == k) = false) (l : List α) :
    (List.orderedInsert (fun x y => key x ≤ key y) a l).filter (fun x => key x == k) =
      l.filter (fun x => key x == k) := by
  induction l with
  | nil => simp [List.orderedInsert, ha]
  | cons b bs ih =>
    by_cases hr : key a ≤ key b
    · simp [List.orderedInsert, hr, ha]
    · simp [List.orderedInsert, hr, List.filter_cons, ih]

theorem orderedInsert_filter_eq {α : Type} (key : α → Int) (k : Int) (a : α)
    (ha : (key a == k) = true) (l : List α) :
    (List.orderedInsert (fun x y => key x ≤ key y) a l).filter (fun x => key x == k) =
      a :: l.filter (fun x => key x == k) := by
  have hak : key a = k := by simpa using ha
  induction l with
  | nil => simp [List.orderedInsert, ha]
  | cons b bs ih =>
    by_cases hr : key a ≤ key b
    · simp [List.orderedInsert, hr, ha]
    · have hb : (key b == k) = false := by
        rw [beq_eq_false_iff_ne]
        omega
      simp [List.orderedInsert, hr, List.filter_cons, hb, ih]

theorem insertionSort_key_filter {α : Type} (key : α → Int) (k : Int) (l : List α) :
    (List.insertionSort (fun x y => key x ≤ key y) l).filter (fun x => key x == k) =
      l.filter (fun x => key x == k) := by
  induction l with
  | nil => rfl
  | cons a l ih =>
    simp only [List.insertionSort]
    by_cases ha : (key a == k) = true
    · rw [orderedInsert_filter_eq key k a ha, ih]
      simp [List.filter_cons, ha]
    · rw [Bool.not_eq_true] at ha
      rw [orderedInsert_filter_ne key k a ha, ih]
      simp [List.filter_cons, ha]

/-- C5: a Source→OrderBySink pipeline on sort key `key`, in either scheduling
mode (batches arrive along the single edge in emission order, spec section 5),
emits exactly one ordered batch equal to the stable sort by `key` of the
concatenated input batches, and the plan finishes OK. The emitted rows are a
permutation of the concatenated input, they are sorted by `key`, and rows
with equal keys keep their original relative order (stability). -/
theorem sourceOrderBy_stable_sorted {α : Type} (parallelMode : Bool) (key : α → Int)
    (bs : List (List α)) :
    ((runSourceOrderBySink parallelMode key (serialGen bs)).2 = Status.okStatus) ∧
    ((runSourceOrderBySink parallelMode key (serialGen bs)).1 =
      [stableSortByKey key bs.flatten]) ∧
    ((stableSortByKey key bs.flatten).Perm bs.flatten) ∧
    (List.Sorted (fun a b => key a ≤ key b) (stableSortByKey key bs.flatten)) ∧
    (∀ k : Int, (stableSortByKey key bs.flatten).filter (fun a => key a == k) =
      bs.flatten.filter (fun a => key a == k)) := by
  refine ⟨?_, ?_, ?_, ?_, ?_⟩
  · simp [runSourceOrderBySink, sourceDrain_serial]
  · simp [runSourceOrderBySink, sourceDrain_serial, deliverOrdered]
  · exact List.perm_insertionSort _ _
  · haveI : IsTotal α (fun a b => key a ≤ key b) := ⟨fun a b => Int.le_total _ _⟩
    haveI : IsTrans α (fun a b => key a ≤ key b) :=
      ⟨fun _ _ _ hab hbc => le_trans hab hbc⟩
    exact List.sorted_insertionSort _ _
  · intro k
    exact insertionSort_key_filter key k bs.flatten

theorem filterBatch_eq_filter {α : Type} (pred : α → Option Bool) (rows : List α) :
    filterBatch pred rows = rows.filter (fun r => pred r == some true) := by
  induction rows with
  | nil => rfl
  | cons r rs ih =>
    by_cases hc : (pred r == some true) = true
    · simp [filterBatch, filterMask, applyMask, List.filter_cons, hc] at ih ⊢
      exact ih
    · rw [Bool.not_eq_true] at hc
      simp [filterBatch, filterMask, applyMask, List.filter_cons, hc] at ih ⊢
      exact ih

theorem filterNode_eq_map {α : Type} (pred : α → Option Bool) (bs : List (List α)) :
    filterNode pred bs = bs.map fun b => b.filter fun r => pred r == some true := by
  have h : filterBatch pred = fun b => b.filter fun r => pred r == some true :=
    funext (filterBatch_eq_filter pred)
  rw [filterNode, h]

/-- C6: the filter node emits, for every input batch, exactly one output
batch holding precisely the rows on which the predicate evaluates to true
(ternary logic: a null predicate value drops the row); all-false batches
yield empty output batches, so the number of output batches equals the
number of input batches. -/
theorem filterNode_preserves_batches {α : Type} (pred : α → Option Bool)
    (bs : List (List α)) :
    ((filterNode pred bs).length = bs.length) ∧
    (filterNode pred bs = bs.map fun b => b.filter fun r => pred r == some true) ∧
    ((filterNode pred bs).all (fun b => b.all fun r => pred r == some true) = true) := by
  refine ⟨by simp [filterNode], filterNode_eq_map pred bs, ?_⟩
  rw [filterNode_eq_map pred bs, List.all_eq_true]
  intro b hb
  rw [List.mem_map] at hb
  obtain ⟨b0, _, rfl⟩ := hb
  rw [List.all_eq_true]
  intro r hr
  exact (List.mem_filter.mp hr).2

/-- Evaluation of the model on the concrete scenario of
`ExecPlanExecution.SourceFilterSink`: filtering the basic batches with
`i32 == 6` yields an empty first batch and `[[6, false]]`. -/
theorem filterNode_basic_eval :
    filterNode predI32Eq6 basicBatches = [[], [(some 6, some false)]] := by
  decide

/-- C7 counterexample: on the input rows the claim lists for scenario S5,
`sum(i32)` is 21 (1 + 2 + 5 + 6 + 7), not 22, so the single output row is
`[21, true]` and not `[22, true]`. -/
theorem scalarAgg_claimed_rows_give_21 :
    ((scalarAggNode [claimedS5Batch]).batches = [[(some 21, some true)]]) ∧
    ((scalarAggNode [claimedS5Batch]).batches ≠ [[(some 22, some true)]]) := by
  decide

/-- C7 amended: on the `MakeBasicBatches` input the test actually feeds -
rows `[null,true]`, `[4,false]`, `[5,null]`, `[6,false]`, `[7,false]` - the
`aggregate(sum(i32), any(bool))` pipeline produces exactly one output batch
with the single row `[22, true]`, both columns emitted as scalars. -/
theorem scalarAgg_basic_rows_give_22 :
    (scalarAggNode basicBatches = ⟨[[(some 22, some true)]], true⟩) ∧
    ((scalarAggNode basicBatches).batches.length = 1) ∧
    (((scalarAggNode basicBatches).batches.getD 0 []).length = 1) ∧
    ((scalarAggNode basicBatches).columnsAreScalar = true) := by
  decide

theorem consumeLoop_allOk {α : Type} (consumeStatus : α → Status) (batches : List α)
    (hall : batches.all (fun b => (consumeStatus b).code == StatusCode.OK) = true)
    (i : Nat) :
    consumeLoop consumeStatus batches i =
      ((List.range' i batches.length).map ConsumingEvent.consume, none) := by
  induction batches generalizing i with
  | nil => rfl
  | cons b rest ih =>
    rw [List.all_cons, Bool.and_eq_true] at hall
    rw [List.length_cons, List.range'_succ, List.map_cons]
    simp [consumeLoop, hall.1, ih hall.2]

/-- C8: when every `Consume` succeeds, the consuming-sink plan calls
`Consume` exactly once per input batch and in input order; the event trace
places the plan-level `finished()` settlement strictly after the completion
of the consumer `Finish()` future, and the plan finishes OK exactly when
`Finish()` completed OK, with a failed `Finish()` failing the plan. -/
theorem consumingSink_once_per_batch {α : Type} (batches : List α)
    (consumeStatus : α → Status) (finishStatus : Status)
    (hall : batches.all (fun b => (consumeStatus b).code == StatusCode.OK) = true) :
    ((consumingSinkRun batches consumeStatus finishStatus).1 =
      (List.range batches.length).map ConsumingEvent.consume ++
        [ConsumingEvent.inputFinished, ConsumingEvent.consumerFinished,
         ConsumingEvent.planFinished]) ∧
    ((consumingSinkRun batches consumeStatus finishStatus).2 =
      if finishStatus.code = StatusCode.OK then Status.okStatus else finishStatus) := by
  have h := consumeLoop_allOk consumeStatus batches hall 0
  constructor
  · simp [consumingSinkRun, h, List.range_eq_range']
  · by_cases hf : finishStatus.code = StatusCode.OK <;>
      simp [consumingSinkRun, h, hf]

/-- Witness for C8: two batches, both consumed OK, `Finish()` OK. -/
theorem consumingSink_once_per_batch_witness :
    (([10, 20] : List Nat).all
      (fun b => (((fun _ => Status.okStatus) : Nat → Status) b).code == StatusCode.OK)
        = true) ∧
    (((consumingSinkRun ([10, 20] : List Nat) (fun _ => Status.okStatus)
        Status.okStatus).1 =
      (List.range ([10, 20] : List Nat).length).map ConsumingEvent.consume ++
        [ConsumingEvent.inputFinished, ConsumingEvent.consumerFinished,
         ConsumingEvent.planFinished]) ∧
      ((consumingSinkRun ([10, 20] : List Nat) (fun _ => Status.okStatus)
          Status.okStatus).2 =
        if Status.okStatus.code = StatusCode.OK then Status.okStatus
        else Status.okStatus)) :=
  ⟨by decide,
    consumingSink_once_per_batch [10, 20] (fun _ => Status.okStatus) Status.okStatus
      (by decide)⟩

/-- Single-edge instance of runtime error propagation (the example the claim
about runtime errors cites): when the generator of a source yields some
batches and then an error, the already-emitted batches reach the sink and the
pipeline settles with exactly that error - same code and message. -/
theorem sourceSink_error_propagates {α : Type} (oks : List α) (e : Status)
    (rest : List (GenItem α)) (he : e.code ≠ StatusCode.OK) :
    (runSourceSink (oks.map GenItem.batch ++ GenItem.failed e :: rest) = (oks, e)) ∧
    (∀ e2 : Status, planFinishedStatus [e, e2] = e) := by
  refine ⟨?_, fun e2 => rfl⟩
  have hd : sourceDrain (oks.map GenItem.batch ++ GenItem.failed e :: rest)
      = (oks, some e) := by
    induction oks with
    | nil => rfl
    | cons b bs ih => simp [sourceDrain, ih]
  simp [runSourceSink, hd, planFinishedStatus, settleFirst]

/-- Evaluation of the single-edge instance on the generator of
`ExecPlanExecution.SourceSinkError`: it yields the two basic batches and then
`Invalid("Artificial error")`. -/
theorem sourceSink_error_propagates_concrete :
    ((⟨StatusCode.Invalid, "Artificial error"⟩ : Status).code ≠ StatusCode.OK) ∧
    ((runSourceSink (([basicBatch1, basicBatch2].map GenItem.batch) ++
        GenItem.failed ⟨StatusCode.Invalid, "Artificial error"⟩ :: []) =
      ([basicBatch1, basicBatch2], ⟨StatusCode.Invalid, "Artificial error"⟩)) ∧
      (∀ e2 : Status,
        planFinishedStatus [⟨StatusCode.Invalid, "Artificial error"⟩, e2] =
          ⟨StatusCode.Invalid, "Artificial error"⟩)) :=
  ⟨by decide,
    sourceSink_error_propagates [basicBatch1, basicBatch2]
      ⟨StatusCode.Invalid, "Artificial error"⟩ [] (by decide)⟩

/-- C10: calling `Open()` on a default-constructed `FileSource` returns an
error with code `Invalid` and message
"Called Open() on an uninitialized FileSource"; the default-constructed
source itself has no filesystem, no buffer, no path and default compression,
and `Open` is a const member leaving that state untouched. -/
theorem fileSource_default_open_invalid :
    (FileSource.defaultCtor.Open =
      Except.error ⟨StatusCode.Invalid, "Called Open() on an uninitialized FileSource"⟩) ∧
    (FileSource.defaultCtor.filesystemPresent = false) ∧
    (FileSource.defaultCtor.bufferPresent = false) ∧
    (FileSource.defaultCtor.pathStr = "") ∧
    (FileSource.defaultCtor.compression = CompressionType.UNCOMPRESSED) :=
  ⟨rfl, rfl, rfl, rfl, rfl⟩

theorem list_any_congr {α : Type} {l : List α} {f g : α → Bool}
    (h : ∀ x ∈ l, f x = g x) : l.any f = l.any g := by
  induction l with
  | nil => rfl
  | cons a t ih =>
    rw [List.any_cons, List.any_cons, h a (by simp),
      ih fun x hx => h x (by simp [hx])]

theorem validate_ok_outputsBound (p : ExecPlan) (h : p.validate.code = StatusCode.OK) :
    outputsBound p.nodes = true := by
  unfold ExecPlan.validate at h
  by_cases h1 : p.nodes.isEmpty
  · simp [h1] at h
  · by_cases h2 : inputsBackward p.nodes = true
    · by_cases h3 : outputsBound p.nodes = true
      · exact h3
      · rw [Bool.not_eq_true] at h3
        simp [h1, h2, h3] at h
    · rw [Bool.not_eq_true] at h2
      simp [h1, h2] at h

theorem erroredFoldl_getD_low (e : Nat) (nodes : List DummyNode) :
    ∀ (acc : List Bool) (j : Nat), j < acc.length →
      (nodes.foldl (erroredStep e) acc).getD j false = acc.getD j false := by
  induction nodes with
  | nil => intro acc j hj; rfl
  | cons n rest ih =>
    intro acc j hj
    rw [List.foldl_cons]
    rw [ih (erroredStep e acc n) j (by simp [erroredStep]; omega)]
    unfold erroredStep
    exact List.getD_append acc _ false j hj

theorem erroredFoldl_getD_at (e : Nat) :
    ∀ (nodes : List DummyNode) (acc : List Bool) (k : Nat), k < nodes.length →
      ((nodes.getD k dummyDefault).inputs.all fun j => decide (j < acc.length + k)) = true →
      (nodes.foldl (erroredStep e) acc).getD (acc.length + k) false =
        (decide (acc.length + k = e) ||
          (nodes.getD k dummyDefault).inputs.any fun j =>
            (nodes.foldl (erroredStep e) acc).getD j false) := by
  intro nodes
  induction nodes with
  | nil =>
    intro acc k hk hbnd
    exact absurd hk (Nat.not_lt_zero k)
  | cons n rest ih =>
    intro acc k hk hbnd
    cases k with
    | zero =>
      rw [Nat.add_zero] at hbnd ⊢
      rw [List.getD_cons_zero] at hbnd ⊢
      rw [List.foldl_cons]
      rw [erroredFoldl_getD_low e rest (erroredStep e acc n) acc.length
        (by simp [erroredStep])]
      have hflag : (erroredStep e acc n).getD acc.length false =
          (decide (acc.length = e) || n.inputs.any fun j => acc.getD j false) := by
        unfold erroredStep
        rw [List.getD_append_right acc _ false acc.length (Nat.le_refl _), Nat.sub_self]
        rfl
      rw [hflag]
      congr 1
      apply list_any_congr
      intro j hj
      rw [List.all_eq_true] at hbnd
      have hjlt : j < acc.length := of_decide_eq_true (hbnd j hj)
      rw [erroredFoldl_getD_low e rest (erroredStep e acc n) j
        (by simp [erroredStep]; omega)]
      unfold erroredStep
      exact (List.getD_append acc _ false j hjlt).symm
    | succ k2 =>
      rw [List.getD_cons_succ] at hbnd ⊢
      rw [List.foldl_cons]
      have hstep : acc.length + (k2 + 1) = (erroredStep e acc n).length + k2 := by
        simp [erroredStep]
        omega
      have hk2 : k2 < rest.length := by
        rw [List.length_cons] at hk
        omega
      have hbnd2 : ((rest.getD k2 dummyDefault).inputs.all fun j =>
          decide (j < (erroredStep e acc n).length + k2)) = true := by
        rw [List.all_eq_true] at hbnd ⊢
        intro j hj
        have hlt := of_decide_eq_true (hbnd j hj)
        rw [decide_eq_true_iff]
        simp [erroredStep]
        omega
      rw [hstep]
      rw [ih (erroredStep e acc n) k2 hk2 hbnd2]

theorem erroredFlags_spec (nodes : List DummyNode) (e : Nat)
    (hib : inputsBackward nodes = true) {i : Nat} (hi : i < nodes.length) :
    (erroredFlags nodes e).getD i false =
      (decide (i = e) || (nodes.getD i dummyDefault).inputs.any fun j =>
        (erroredFlags nodes e).getD j false) := by
  have hbnd : ((nodes.getD i dummyDefault).inputs.all fun j =>
      decide (j < ([] : List Bool).length + i)) = true := by
    rw [List.all_eq_true]
    intro j hj
    have := inputsBackward_elim hib hi hj
    rw [decide_eq_true_iff]
    simpa using this
  have h := erroredFoldl_getD_at e nodes [] i hi hbnd
  simpa [erroredFlags] using h

theorem map_sum_pos_index {α : Type} (g : α → Nat) (d : α) :
    ∀ l : List α, (l.map g).sum ≠ 0 → ∃ c, c < l.length ∧ g (l.getD c d) ≠ 0 := by
  intro l
  induction l with
  | nil => intro h; simp at h
  | cons x xs ih =>
    intro h
    by_cases hx : g x = 0
    · have hrest : (xs.map g).sum ≠ 0 := by
        rw [List.map_cons, List.sum_cons, hx, Nat.zero_add] at h
        exact h
      obtain ⟨c, hc, hg⟩ := ih hrest
      refine ⟨c + 1, ?_, ?_⟩
      · rw [List.length_cons]
        omega
      · rw [List.getD_cons_succ]
        exact hg
    · exact ⟨0, by simp, by rw [List.getD_cons_zero]; exact hx⟩

theorem exists_consumer (nodes : List DummyNode)
    (hob : outputsBound nodes = true) (hib : inputsBackward nodes = true)
    {i : Nat} (hi : i < nodes.length) (hns : isSink nodes i = false) :
    ∃ c, c < nodes.length ∧ i < c ∧ i ∈ (nodes.getD c dummyDefault).inputs := by
  have h1 : (nodes.getD i dummyDefault).numOutputs = refCount nodes i := by
    unfold outputsBound at hob
    rw [List.all_eq_true] at hob
    have h := hob i (List.mem_range.mpr hi)
    exact beq_iff_eq.mp h
  have h2 : refCount nodes i ≠ 0 := by
    unfold isSink at hns
    rw [beq_eq_false_iff_ne] at hns
    rw [h1] at hns
    exact hns
  unfold refCount at h2
  obtain ⟨c, hc, hg⟩ := map_sum_pos_index (fun n => n.inputs.count i) dummyDefault nodes h2
  have hmem : i ∈ (nodes.getD c dummyDefault).inputs := by
    rw [← List.count_pos_iff]
    omega
  exact ⟨c, hc, inputsBackward_elim hib hc hmem, hmem⟩

theorem errored_reaches_sink (nodes : List DummyNode) (e : Nat)
    (hib : inputsBackward nodes = true) (hob : outputsBound nodes = true) :
    ∀ k i, i < nodes.length → nodes.length - i ≤ k →
      (erroredFlags nodes e).getD i false = true →
      ∃ s, s < nodes.length ∧ isSink nodes s = true ∧
        (erroredFlags nodes e).getD s false = true := by
  intro k
  induction k with
  | zero =>
    intro i hi hk _
    exfalso
    omega
  | succ k ih =>
    intro i hi hk hflag
    by_cases hs : isSink nodes i = true
    · exact ⟨i, hi, hs, hflag⟩
    · rw [Bool.not_eq_true] at hs
      obtain ⟨c, hcn, hic, hmem⟩ := exists_consumer nodes hob hib hi hs
      have hfc : (erroredFlags nodes e).getD c false = true := by
        rw [erroredFlags_spec nodes e hib hcn, Bool.or_eq_true]
        right
        rw [List.any_eq_true]
        exact ⟨i, hmem, hflag⟩
      exact ih c hcn (by omega) hfc

theorem foldl_settleFirst_some (l : List Status) (s : Status) :
    l.foldl settleFirst (some s) = some s := by
  induction l with
  | nil => rfl
  | cons a t ih =>
    rw [List.foldl_cons]
    exact ih

theorem planFinishedStatus_first (err : Status) (rest : List Status) :
    planFinishedStatus (err :: rest) = err := by
  unfold planFinishedStatus
  rw [List.foldl_cons]
  show (match rest.foldl settleFirst (some err) with
    | none => Status.okStatus
    | some e => e) = err
  rw [foldl_settleFirst_some]

theorem planRuntimeFinished_eq (nodes : List DummyNode) (e : Nat) (err : Status)
    (herr : ¬err.code = StatusCode.OK)
    (hsink : ∃ s, s < nodes.length ∧ isSink nodes s = true ∧
      (erroredFlags nodes e).getD s false = true) :
    planRuntimeFinished nodes e err = err := by
  obtain ⟨s, hs, hsnk, hflag⟩ := hsink
  unfold planRuntimeFinished
  have hmem : err ∈ (sinkSettlements nodes e err).filter
      fun st => !(st.code == StatusCode.OK) := by
    rw [List.mem_filter]
    constructor
    · unfold sinkSettlements
      rw [List.mem_map]
      refine ⟨s, ?_, ?_⟩
      · rw [List.mem_filter]
        exact ⟨List.mem_range.mpr hs, hsnk⟩
      · rw [hflag]
        rfl
    · simp [herr]
  have hall : ∀ st ∈ (sinkSettlements nodes e err).filter
      fun st => !(st.code == StatusCode.OK), st = err := by
    intro st hst
    rw [List.mem_filter] at hst
    obtain ⟨hin, hcode⟩ := hst
    unfold sinkSettlements at hin
    rw [List.mem_map] at hin
    obtain ⟨t, _, hteq⟩ := hin
    by_cases hft : (erroredFlags nodes e).getD t false = true
    · rw [hft] at hteq
      rw [← hteq]
      rfl
    · rw [Bool.not_eq_true] at hft
      rw [hft] at hteq
      simp only [Bool.false_eq_true, if_false] at hteq
      rw [← hteq] at hcode
      simp [Status.okStatus] at hcode
  cases hLc : (sinkSettlements nodes e err).filter
      fun st => !(st.code == StatusCode.OK) with
  | nil =>
    rw [hLc] at hmem
    simp at hmem
  | cons a t =>
    have ha : a = err := hall a (by rw [hLc]; simp)
    rw [ha]
    exact planFinishedStatus_first err t

/-- C9: in every valid plan, when any node `e` signals a runtime error `err`,
the error propagates downstream through the DAG - the signalling node is
errored and every node consuming an errored input is errored - it reaches at
least one sink, and the plan-level `finished()` settles with exactly that
error, same code and message, the first observed error winning over any
status settled after it. -/
theorem runtimeError_propagates_to_finished (p : ExecPlan) (e : Nat) (err : Status)
    (hv : p.validate.code = StatusCode.OK)
    (he : e < p.nodes.length)
    (herr : ¬err.code = StatusCode.OK) :
    ((erroredFlags p.nodes e).getD e false = true) ∧
    (∀ i, i < p.nodes.length → ∀ j ∈ (p.nodes.getD i dummyDefault).inputs,
      (erroredFlags p.nodes e).getD j false = true →
        (erroredFlags p.nodes e).getD i false = true) ∧
    (∃ s, s < p.nodes.length ∧ isSink p.nodes s = true ∧
      (erroredFlags p.nodes e).getD s false = true) ∧
    (planRuntimeFinished p.nodes e err = err) ∧
    (∀ rest : List Status, planFinishedStatus (err :: rest) = err) := by
  have hib := validate_ok_inputsBackward p hv
  have hob := validate_ok_outputsBound p hv
  have hself : (erroredFlags p.nodes e).getD e false = true := by
    rw [erroredFlags_spec p.nodes e hib he]
    simp
  have hreach := errored_reaches_sink p.nodes e hib hob
    (p.nodes.length - e) e he (Nat.le_refl _) hself
  refine ⟨hself, ?_, hreach, planRuntimeFinished_eq p.nodes e err herr hreach,
    fun rest => planFinishedStatus_first err rest⟩
  intro i hi j hj hfj
  rw [erroredFlags_spec p.nodes e hib hi, Bool.or_eq_true]
  right
  rw [List.any_eq_true]
  exact ⟨j, hj, hfj⟩

/-- Witness for C9: the six-node test DAG with a runtime error signalled by
`source1` (index 0) carrying the `Invalid("Artificial error")` status of
`ExecPlanExecution.SourceSinkError`. -/
theorem runtimeError_propagates_witness :
    (testPlan.validate.code = StatusCode.OK ∧ 0 < testPlan.nodes.length ∧
      ¬(⟨StatusCode.Invalid, "Artificial error"⟩ : Status).code = StatusCode.OK) ∧
    (((erroredFlags testPlan.nodes 0).getD 0 false = true) ∧
      (∀ i, i < testPlan.nodes.length →
        ∀ j ∈ (testPlan.nodes.getD i dummyDefault).inputs,
          (erroredFlags testPlan.nodes 0).getD j false = true →
            (erroredFlags testPlan.nodes 0).getD i false = true) ∧
      (∃ s, s < testPlan.nodes.length ∧ isSink testPlan.nodes s = true ∧
        (erroredFlags testPlan.nodes 0).getD s false = true) ∧
      (planRuntimeFinished testPlan.nodes 0
        ⟨StatusCode.Invalid, "Artificial error"⟩ =
          ⟨StatusCode.Invalid, "Artificial error"⟩) ∧
      (∀ rest : List Status,
        planFinishedStatus (⟨StatusCode.Invalid, "Artificial error"⟩ :: rest) =
          ⟨StatusCode.Invalid, "Artificial error"⟩)) :=
  ⟨⟨by decide, by decide, by decide⟩,
    runtimeError_propagates_to_finished testPlan 0
      ⟨StatusCode.Invalid, "Artificial error"⟩ (by decide) (by decide) (by decide)⟩

/-- Evaluation of the propagation scan on the six-node test DAG with the
error signalled by `source2` (index 1): exactly `source2` and its downstream
closure `process2`, `process3`, `sink` are errored, while `source1` and
`process1` are not. -/
theorem erroredFlags_testPlan_eval :
    erroredFlags testPlanNodes 1 = [false, true, false, true, true, true] := by
  decide

end ArrowModel
